import Mathlib

/-!
Verification development for the htlcswitch routing core of this repository.

The file embeds, first, the Go interface declarations of
src/htlcswitch/interfaces.go as syntactic method-signature data, and second,
the behaviour of the routing/bookkeeping core these interfaces specify
(Switch dispatch, link bandwidth accounting, invoice settlement, link
lifecycle), as executable Lean definitions.  The behavioural definitions are
modelled from the specification, since only the interface declarations of the
subsystem are part of the source tree; each such definition carries a doc
comment that names what it models.
-/

namespace HtlcSwitch

/-! ## Syntactic embedding of the Go interface signatures -/

/-- A Go type appearing in a parameter or result position of one of the
interfaces declared in src/htlcswitch/interfaces.go. -/
inductive GoType where
  | ptrHtlcPacket
  | lnwireMessage
  | lnwireChannelID
  | lnwireShortChannelID
  | forwardingPolicy
  | lnwireMilliSatoshi
  | uint64
  | goError
  | peerIface
  | chainhashHash
  | channeldbInvoice
  | goBool
  | byteArr33
  | ptrWireOutPoint
  deriving DecidableEq

/-- A Go interface method: name, parameter types, result types. -/
structure GoMethod where
  name : String
  args : List GoType
  rets : List GoType
  deriving DecidableEq

/-- The methods of the InvoiceDatabase interface, transcribed from
src/htlcswitch/interfaces.go lines 12-20. -/
def invoiceDatabaseMethods : List GoMethod :=
  [ { name := "LookupInvoice", args := [GoType.chainhashHash],
      rets := [GoType.channeldbInvoice, GoType.goError] },
    { name := "SettleInvoice", args := [GoType.chainhashHash],
      rets := [GoType.goError] } ]

/-- The methods of the ChannelLink interface, transcribed from
src/htlcswitch/interfaces.go lines 40-105. -/
def channelLinkMethods : List GoMethod :=
  [ { name := "HandleSwitchPacket", args := [GoType.ptrHtlcPacket], rets := [] },
    { name := "HandleChannelUpdate", args := [GoType.lnwireMessage], rets := [] },
    { name := "ChanID", args := [], rets := [GoType.lnwireChannelID] },
    { name := "ShortChanID", args := [], rets := [GoType.lnwireShortChannelID] },
    { name := "UpdateShortChanID", args := [GoType.lnwireShortChannelID], rets := [] },
    { name := "UpdateForwardingPolicy", args := [GoType.forwardingPolicy], rets := [] },
    { name := "Bandwidth", args := [], rets := [GoType.lnwireMilliSatoshi] },
    { name := "Stats", args := [],
      rets := [GoType.uint64, GoType.lnwireMilliSatoshi, GoType.lnwireMilliSatoshi] },
    { name := "Peer", args := [], rets := [GoType.peerIface] },
    { name := "EligibleToForward", args := [], rets := [GoType.goBool] },
    { name := "Start", args := [], rets := [GoType.goError] },
    { name := "Stop", args := [], rets := [] } ]

/-- The methods of the Peer interface, transcribed from
src/htlcswitch/interfaces.go lines 109-123. -/
def peerMethods : List GoMethod :=
  [ { name := "SendMessage", args := [GoType.lnwireMessage], rets := [GoType.goError] },
    { name := "WipeChannel", args := [GoType.ptrWireOutPoint], rets := [GoType.goError] },
    { name := "PubKey", args := [], rets := [GoType.byteArr33] },
    { name := "Disconnect", args := [GoType.goError], rets := [] } ]

/-- Look up a method of an interface by name. -/
def method (ms : List GoMethod) (n : String) : Option GoMethod :=
  ms.find? (fun m => m.name == n)

/-- Whether a method has an error among its results, i.e. whether a caller can
observe a synchronous failure at the interface. -/
def returnsError (m : GoMethod) : Bool :=
  m.rets.contains GoType.goError

/-- Modelled from the spec: MilliSatoshi is an unsigned 64-bit value type
(spec section 3, and lnwire.MilliSatoshi, whose definition lies outside the
source tree).  A Go type is an unsigned integer type exactly when over- or
underflow wraps modulo its width instead of going negative. -/
def isUnsignedGoType : GoType → Bool
  | GoType.lnwireMilliSatoshi => true
  | GoType.uint64 => true
  | _ => false

/-! ## Link bandwidth accounting -/

/-- Modelled from the spec: the per-channel state a ChannelLink keeps for
bandwidth accounting (spec section 3, bandwidth invariant): the channel
capacity, the channel reserve, the set of outgoing HTLCs not yet resolved
(id and amount, in millisatoshis), and the running totals reported by
Stats(). -/
structure LinkChan where
  capacity : Nat
  reserve : Nat
  inflight : List (Nat × Nat)
  totalSent : Nat
  deriving DecidableEq

/-- Sum of the amounts of the outgoing HTLCs not yet resolved. -/
def inflightSum (l : LinkChan) : Nat :=
  (l.inflight.map Prod.snd).sum

/-- Modelled from the spec: ChannelLink.Bandwidth() (interface declaration at
src/htlcswitch/interfaces.go lines 79-84; value fixed by the spec section 3
invariant): capacity minus the amounts of unresolved outgoing HTLCs minus the
reserve. -/
def bandwidth (l : LinkChan) : Nat :=
  l.capacity - inflightSum l - l.reserve

/-- Modelled from the spec: the admission check a link performs before
committing to forward an outgoing add — the add is accepted only if the
bandwidth invariant still holds afterwards. -/
def mayForward (l : LinkChan) (amt : Nat) : Bool :=
  decide (inflightSum l + amt + l.reserve ≤ l.capacity)

/-- Modelled from the spec: forwarding an outgoing add through the link; the
add is rejected (state unchanged, none) when it would drive the bandwidth
negative. -/
def forwardAdd (l : LinkChan) (i amt : Nat) : Option LinkChan :=
  if mayForward l amt then
    some { l with inflight := (i, amt) :: l.inflight }
  else
    none

/-- Modelled from the spec: a terminal settle for outgoing HTLC i — the HTLC
is resolved, releasing its reserved bandwidth, and the settled amount is added
to the total-sent counter. -/
def settleHtlc (l : LinkChan) (i : Nat) : LinkChan :=
  { l with
    inflight := l.inflight.filter (fun p => p.1 != i),
    totalSent :=
      l.totalSent + ((l.inflight.filter (fun p => p.1 == i)).map Prod.snd).sum }

/-- Modelled from the spec: a terminal fail for outgoing HTLC i — the HTLC is
resolved, releasing its reserved bandwidth; nothing was sent. -/
def failHtlc (l : LinkChan) (i : Nat) : LinkChan :=
  { l with inflight := l.inflight.filter (fun p => p.1 != i) }

/-- One bandwidth-relevant operation on a link. -/
inductive LinkOp where
  | add (i amt : Nat)
  | settle (i : Nat)
  | fail (i : Nat)
  deriving DecidableEq

/-- Apply one operation; a rejected add leaves the state unchanged. -/
def applyOp (l : LinkChan) : LinkOp → LinkChan
  | LinkOp.add i amt => (forwardAdd l i amt).getD l
  | LinkOp.settle i => settleHtlc l i
  | LinkOp.fail i => failHtlc l i

/-- Run a sequence of operations on a link. -/
def runOps (l : LinkChan) (ops : List LinkOp) : LinkChan :=
  ops.foldl applyOp l

/-- The bandwidth invariant as a predicate on link state: the unresolved
outgoing amounts plus the reserve never exceed the capacity. -/
def bwInvariant (l : LinkChan) : Prop :=
  inflightSum l + l.reserve ≤ l.capacity

instance decidableBwInvariant (l : LinkChan) : Decidable (bwInvariant l) :=
  inferInstanceAs (Decidable (inflightSum l + l.reserve ≤ l.capacity))

/-! ## Unsigned 64-bit arithmetic for Bandwidth() -/

/-- Wrapping subtraction of unsigned 64-bit integers represented as naturals:
the result a Go uint64 subtraction a - b produces. -/
def usub64 (a b : Nat) : Nat :=
  (a % 2 ^ 64 + (2 ^ 64 - b % 2 ^ 64)) % 2 ^ 64

/-- Modelled from the spec: Bandwidth() computed in lnwire.MilliSatoshi
(uint64, outside the source tree; spec section 3 fixes it as an unsigned
millisatoshi value type) arithmetic: capacity - inflight - reserve with each
subtraction wrapping modulo 2^64. -/
def bandwidthU64 (l : LinkChan) : Nat :=
  usub64 (usub64 l.capacity (inflightSum l)) l.reserve

/-! ## Switch dispatch and terminal-response accounting -/

/-- Modelled from the spec: the events the Switch processes for one payment
circuit (spec sections 4.1 and 4.2).  A forward event is an add packet handed
to Switch.Forward, with routeOk recording whether the destination link was
found, eligible and of sufficient bandwidth; a response event is a terminal
settle (isSettle true) or fail (isSettle false) handed back for payment hash
h by the destination link or the invoice logic. -/
inductive SwEvent where
  | forward (h : Nat) (routeOk : Bool)
  | response (h : Nat) (isSettle : Bool)
  deriving DecidableEq

/-- Modelled from the spec: the Switch state relevant to terminal-response
accounting — the open circuits (payment hashes of accepted adds awaiting
their terminal response) and the terminal packets already emitted along the
reverse path (payment hash, isSettle). -/
structure SwState where
  circuits : List Nat
  emitted : List (Nat × Bool)
  deriving DecidableEq

/-- Modelled from the spec: one Switch step (spec section 4.1).  Forward: if
routing succeeds the add is accepted and a circuit is opened; otherwise the
Switch synthesizes a fail packet and routes it back immediately.
HandleSettleOrFail: a terminal response closes its circuit and is emitted
along the reverse path; a duplicate response for an already-resolved HTLC is
dropped, not re-applied. -/
def swStep (s : SwState) : SwEvent → SwState
  | SwEvent.forward h ok =>
      if ok then
        { s with circuits := h :: s.circuits }
      else
        { s with emitted := (h, false) :: s.emitted }
  | SwEvent.response h b =>
      if h ∈ s.circuits then
        { circuits := s.circuits.erase h, emitted := (h, b) :: s.emitted }
      else
        s

/-- Run the Switch over a list of events. -/
def swRun (s : SwState) (es : List SwEvent) : SwState :=
  es.foldl swStep s

/-- The Switch state before any event. -/
def swInit : SwState :=
  { circuits := [], emitted := [] }

/-- How many terminal packets have been emitted for payment hash h. -/
def terminalCount (s : SwState) (h : Nat) : Nat :=
  (s.emitted.filter (fun p => p.1 == h)).length

/-- Whether an event is a forward of an add with payment hash h. -/
def isForwardOf (h : Nat) : SwEvent → Bool
  | SwEvent.forward g _ => g == h
  | SwEvent.response _ _ => false

/-- Whether an event is a terminal response for payment hash h. -/
def isResponseOf (h : Nat) : SwEvent → Bool
  | SwEvent.forward _ _ => false
  | SwEvent.response g _ => g == h

/-! ## Routing decisions of Switch.Forward -/

/-- Modelled from the spec: what Switch.Forward needs to know about a
candidate destination link: EligibleToForward() and Bandwidth(). -/
structure RouteLink where
  eligible : Bool
  bw : Nat
  deriving DecidableEq

/-- The outcome of one Switch.Forward routing decision: either the packet is
delivered to the destination link's non-blocking handler, or a fail packet is
synthesized and routed back.  There is no other outcome — no fatal error, no
silent drop. -/
inductive FwdOutcome where
  | delivered (dest : Nat)
  | failBack
  deriving DecidableEq

/-- Modelled from the spec: the routing decision of Switch.Forward (spec
sections 4.1 and 7): resolve the destination by ShortChannelID; deliver only
if the link is found, EligibleToForward() is true and Bandwidth() suffices;
otherwise synthesize a fail packet and route it back immediately. -/
def forwardPacket (index : Nat → Option RouteLink) (dest amt : Nat) : FwdOutcome :=
  match index dest with
  | none => FwdOutcome.failBack
  | some l =>
      if l.eligible && decide (amt ≤ l.bw) then
        FwdOutcome.delivered dest
      else
        FwdOutcome.failBack

/-- Remove one ShortChannelID from a routing index (how an absent link looks
to Forward). -/
def dropFromIndex (index : Nat → Option RouteLink) (sid : Nat) :
    Nat → Option RouteLink :=
  fun d => if d == sid then none else index d

/-! ## Short-channel-ID identity and the Switch index -/

/-- Modelled from the spec: the identity state of a link — ChanID is
immutable, sid is the short channel ID returned by ShortChanID(). -/
structure LinkIdent where
  chanID : Nat
  sid : Nat
  deriving DecidableEq

/-- Modelled from the spec: ChannelLink.ShortChanID() (interface declaration
at src/htlcswitch/interfaces.go lines 63-66), a read-only query. -/
def shortChanID (l : LinkIdent) : Nat :=
  l.sid

/-- Modelled from the spec: ChannelLink.UpdateShortChanID(id) (interface
declaration at src/htlcswitch/interfaces.go lines 68-72), the sole mutator of
short-ID identity, visible to subsequent ShortChanID() calls immediately. -/
def updateShortChanID (l : LinkIdent) (i : Nat) : LinkIdent :=
  { l with sid := i }

/-- The Switch's routing index: an association list from ShortChannelID to a
link identifier. -/
abbrev SwitchIndex : Type :=
  List (Nat × Nat)

/-- Look up the link registered under a ShortChannelID. -/
def lookupLink (idx : SwitchIndex) (sid : Nat) : Option Nat :=
  (List.find? (fun p => p.1 == sid) idx).map Prod.snd

/-- Modelled from the spec: the re-registration the Switch performs after
UpdateShortChanID (spec sections 4.1 and 5): atomically drop the mapping
under the old ID and install the mapping under the new ID; lookups observe
either the fully-old or the fully-new mapping, never a partial one. -/
def reregister (idx : SwitchIndex) (oldSid newSid lid : Nat) : SwitchIndex :=
  (newSid, lid) :: List.filter (fun p => p.1 != oldSid) idx

/-! ## Forwarding policy and committed HTLC terms -/

/-- ForwardingPolicy, transcribed from the spec section 3: base fee,
proportional fee rate (parts per million), minimum and maximum HTLC amount,
outgoing time-lock delta. -/
structure ForwardingPolicy where
  baseFee : Nat
  feeRate : Nat
  minHTLC : Nat
  maxHTLC : Nat
  timeLockDelta : Nat
  deriving DecidableEq

/-- The fee and time-lock terms committed to an HTLC at admission. -/
structure HtlcTerms where
  fee : Nat
  timeLockDelta : Nat
  deriving DecidableEq

/-- Modelled from the spec: the terms an admission decision commits to under
a policy: base fee plus proportional fee, and the policy's outgoing
time-lock delta. -/
def committedTerms (p : ForwardingPolicy) (amt : Nat) : HtlcTerms :=
  { fee := p.baseFee + p.feeRate * amt / 1000000,
    timeLockDelta := p.timeLockDelta }

/-- Modelled from the spec: whether a policy admits an HTLC of this amount. -/
def admitsAmt (p : ForwardingPolicy) (amt : Nat) : Bool :=
  decide (p.minHTLC ≤ amt) && decide (amt ≤ p.maxHTLC)

/-- Modelled from the spec: the policy-relevant state of a live link — its
current forwarding policy and the HTLCs already admitted, each with the terms
committed at its admission. -/
structure PolicyLink where
  policy : ForwardingPolicy
  admitted : List (Nat × HtlcTerms)
  deriving DecidableEq

/-- Modelled from the spec: evaluating an incoming HTLC against the link's
current policy; on admission the terms computed from the current policy are
committed and recorded with the HTLC. -/
def admitHtlc (l : PolicyLink) (i amt : Nat) : PolicyLink :=
  if admitsAmt l.policy amt then
    { l with admitted := (i, committedTerms l.policy amt) :: l.admitted }
  else
    l

/-- Modelled from the spec: ChannelLink.UpdateForwardingPolicy (interface
declaration at src/htlcswitch/interfaces.go lines 74-77): swap the policy on
a live link; only future admission decisions use it. -/
def updateForwardingPolicy (l : PolicyLink) (p : ForwardingPolicy) : PolicyLink :=
  { l with policy := p }

/-- The terms committed to an admitted HTLC, by id. -/
def termsOf (l : PolicyLink) (i : Nat) : Option HtlcTerms :=
  (List.find? (fun p => p.1 == i) l.admitted).map Prod.snd

/-! ## Link lifecycle -/

/-- ChannelLink lifecycle states, transcribed from the spec section 3. -/
inductive LifeState where
  | created
  | starting
  | active
  | stopping
  | stopped
  deriving DecidableEq

/-- Modelled from the spec: the lifecycle-relevant state of a link: its
lifecycle state, the packets still queued, and the terminal resolutions
already emitted for in-flight HTLCs (id, settled?). -/
structure LifeLink where
  life : LifeState
  queue : List Nat
  resolved : List (Nat × Bool)
  deriving DecidableEq

/-- Modelled from the spec: ChannelLink.Stop() (interface declaration at
src/htlcswitch/interfaces.go lines 101-104): drain any queued packets — every
pending HTLC resolves to a terminal fail during shutdown, never dropped —
and transition to Stopped; on an already-stopped link it is a no-op. -/
def stopLink (l : LifeLink) : LifeLink :=
  if l.life = LifeState.stopped then
    l
  else
    { life := LifeState.stopped,
      queue := [],
      resolved := l.queue.map (fun h => (h, false)) ++ l.resolved }

/-! ## Invoice database -/

/-- The settlement status of a stored invoice. -/
inductive InvStatus where
  | opened
  | settled
  deriving DecidableEq

/-- The invoice database: payment hash to invoice status. -/
abbrev InvoiceDB : Type :=
  List (Nat × InvStatus)

/-- The errors SettleInvoice can return; the two are distinct, which is what
lets the Switch tell an unknown invoice from a duplicate settle. -/
inductive InvoiceErr where
  | errNotFound
  | errAlreadySettled
  deriving DecidableEq

/-- Modelled from the spec: InvoiceDatabase.LookupInvoice (interface
declaration at src/htlcswitch/interfaces.go lines 13-15), a pure read. -/
def lookupInvoice (db : InvoiceDB) (h : Nat) : Option InvStatus :=
  (List.find? (fun p => p.1 == h) db).map Prod.snd

/-- Mark the invoice under payment hash h as settled, keeping every other
entry unchanged. -/
def markSettled (db : InvoiceDB) (h : Nat) : InvoiceDB :=
  List.map (fun p => if p.1 == h then (p.1, InvStatus.settled) else p) db

/-- Modelled from the spec: InvoiceDatabase.SettleInvoice (interface
declaration at src/htlcswitch/interfaces.go lines 17-19): transition the
invoice to settled exactly once; a call on an unknown invoice fails with
errNotFound, a call on an already-settled invoice fails with
errAlreadySettled, and a failing call leaves the database unchanged. -/
def settleInvoice (db : InvoiceDB) (h : Nat) : Except InvoiceErr Unit × InvoiceDB :=
  match lookupInvoice db h with
  | none => (Except.error InvoiceErr.errNotFound, db)
  | some InvStatus.settled => (Except.error InvoiceErr.errAlreadySettled, db)
  | some InvStatus.opened => (Except.ok (), markSettled db h)

/-! ## Concrete sample values used to instantiate the theorems -/

/-- The concrete link of the spec section 8 scenario: capacity 1,000,000
msat, reserve 0, nothing in flight. -/
def linkA : LinkChan :=
  { capacity := 1000000, reserve := 0, inflight := [], totalSent := 0 }

/-- A concrete routing index holding a single ineligible link under short
channel ID 1. -/
def sampleIndex : Nat → Option RouteLink :=
  fun d => if d == 1 then some { eligible := false, bw := 1000 } else none

/-- A concrete routing index holding a single eligible link of bandwidth
1000 under short channel ID 1. -/
def sampleIndexOk : Nat → Option RouteLink :=
  fun d => if d == 1 then some { eligible := true, bw := 1000 } else none

/-! ## Theorems -/

/-- C7: Stop() on a ChannelLink is idempotent: after a first Stop() has
transitioned the link to Stopped, a second Stop() is a no-op — it returns no
error (stopLink is a total function into link states), changes nothing, and
in particular does not duplicate the terminal resolution of any in-flight
HTLC. -/
theorem stopLink_idempotent (l : LifeLink) :
    stopLink (stopLink l) = stopLink l
    ∧ (stopLink l).life = LifeState.stopped
    ∧ (stopLink (stopLink l)).resolved = (stopLink l).resolved := by
  by_cases h : l.life = LifeState.stopped
  · simp [stopLink, h]
  · simp [stopLink, h]

/-- C8: HandleSwitchPacket and HandleChannelUpdate have no results at all in
the ChannelLink interface — in particular no error result — so a caller can
never observe a synchronous per-packet failure; and in the modelled Switch a
routing failure is reported asynchronously, as a backward fail packet
appended to the emitted stream, never returned to the caller. -/
theorem handlers_no_sync_failure :
    (method channelLinkMethods "HandleSwitchPacket").map GoMethod.rets = some []
    ∧ (method channelLinkMethods "HandleChannelUpdate").map GoMethod.rets = some []
    ∧ (method channelLinkMethods "HandleSwitchPacket").map returnsError = some false
    ∧ (method channelLinkMethods "HandleChannelUpdate").map returnsError = some false
    ∧ ∀ (s : SwState) (h : Nat),
        swStep s (SwEvent.forward h false)
          = { s with emitted := (h, false) :: s.emitted } :=
  ⟨rfl, rfl, rfl, rfl, fun _ _ => rfl⟩

/-- C10: unlike Start(), which returns a Go error, Stop() and
UpdateShortChanID() have no results in the ChannelLink interface: shutdown
and short-channel-ID reassignment are infallible at this interface and a
caller receives no failure indication. -/
theorem stop_updateShortChanID_infallible :
    (method channelLinkMethods "Start").map GoMethod.rets = some [GoType.goError]
    ∧ (method channelLinkMethods "Stop").map GoMethod.rets = some []
    ∧ (method channelLinkMethods "UpdateShortChanID").map GoMethod.rets = some []
    ∧ (method channelLinkMethods "Start").map returnsError = some true
    ∧ (method channelLinkMethods "Stop").map returnsError = some false
    ∧ (method channelLinkMethods "UpdateShortChanID").map returnsError = some false :=
  ⟨rfl, rfl, rfl, rfl, rfl, rfl⟩

/-- C6: UpdateForwardingPolicy on a live link affects only admission
decisions made after the call: the set of admitted HTLCs and the terms
committed at their admission are unchanged by the policy swap, while an HTLC
admitted after the swap is evaluated under, and committed to, the new
policy. -/
theorem updateForwardingPolicy_frame (l : PolicyLink) (p : ForwardingPolicy)
    (i j amt : Nat) :
    (updateForwardingPolicy l p).admitted = l.admitted
    ∧ termsOf (updateForwardingPolicy l p) i = termsOf l i
    ∧ (admitsAmt p amt = true →
        termsOf (admitHtlc (updateForwardingPolicy l p) j amt) j
          = some (committedTerms p amt))
    ∧ (i ≠ j →
        termsOf (admitHtlc (updateForwardingPolicy l p) j amt) i = termsOf l i) := by
  refine ⟨rfl, rfl, ?_, ?_⟩
  · intro hadm
    simp [admitHtlc, updateForwardingPolicy, hadm, termsOf]
  · intro hne
    by_cases hadm : admitsAmt p amt = true
    · simp [admitHtlc, updateForwardingPolicy, hadm, termsOf, List.find?,
        Ne.symm hne]
    · simp [admitHtlc, updateForwardingPolicy, hadm, termsOf]

/-- C6 witness: the frame theorem instantiated on a concrete link with one
HTLC admitted under the old policy, a policy swap, and one admission under
the new policy. -/
theorem updateForwardingPolicy_frame_witness :
    termsOf
        (admitHtlc
          (updateForwardingPolicy
            { policy :=
                { baseFee := 5, feeRate := 0, minHTLC := 0, maxHTLC := 1000000,
                  timeLockDelta := 40 },
              admitted := [(1, { fee := 5, timeLockDelta := 40 })] }
            { baseFee := 9, feeRate := 0, minHTLC := 0, maxHTLC := 1000000,
              timeLockDelta := 70 })
          2 500)
        1
      = some { fee := 5, timeLockDelta := 40 }
    ∧ termsOf
        (admitHtlc
          (updateForwardingPolicy
            { policy :=
                { baseFee := 5, feeRate := 0, minHTLC := 0, maxHTLC := 1000000,
                  timeLockDelta := 40 },
              admitted := [(1, { fee := 5, timeLockDelta := 40 })] }
            { baseFee := 9, feeRate := 0, minHTLC := 0, maxHTLC := 1000000,
              timeLockDelta := 70 })
          2 500)
        2
      = some { fee := 9, timeLockDelta := 70 } := by
  constructor
  · have h :=
      (updateForwardingPolicy_frame
        { policy :=
            { baseFee := 5, feeRate := 0, minHTLC := 0, maxHTLC := 1000000,
              timeLockDelta := 40 },
          admitted := [(1, { fee := 5, timeLockDelta := 40 })] }
        { baseFee := 9, feeRate := 0, minHTLC := 0, maxHTLC := 1000000,
          timeLockDelta := 70 }
        1 2 500).2.2.2 (by decide)
    rw [h]
    decide
  · have h :=
      (updateForwardingPolicy_frame
        { policy :=
            { baseFee := 5, feeRate := 0, minHTLC := 0, maxHTLC := 1000000,
              timeLockDelta := 40 },
          admitted := [(1, { fee := 5, timeLockDelta := 40 })] }
        { baseFee := 9, feeRate := 0, minHTLC := 0, maxHTLC := 1000000,
          timeLockDelta := 70 }
        1 2 500).2.2.1 (by decide)
    rw [h]
    decide

/-- C4: whenever the destination link is absent from the index, or present
but ineligible, or present but of insufficient bandwidth, Switch.Forward
synthesizes a fail packet routed back immediately (outcome failBack); the
decision is a total function whose only outcomes are delivery and failBack —
no fatal error, no blocking, no silent drop — and an ineligible link is
treated identically to an absent one. -/
theorem forward_routing_failure (index : Nat → Option RouteLink) (dest amt : Nat) :
    (index dest = none → forwardPacket index dest amt = FwdOutcome.failBack)
    ∧ (∀ l, index dest = some l → l.eligible = false →
        forwardPacket index dest amt = FwdOutcome.failBack)
    ∧ (∀ l, index dest = some l → l.bw < amt →
        forwardPacket index dest amt = FwdOutcome.failBack)
    ∧ (∀ l, index dest = some l → l.eligible = false →
        forwardPacket index dest amt
          = forwardPacket (dropFromIndex index dest) dest amt)
    ∧ (forwardPacket index dest amt = FwdOutcome.failBack
        ∨ forwardPacket index dest amt = FwdOutcome.delivered dest) := by
  refine ⟨?_, ?_, ?_, ?_, ?_⟩
  · intro hnone
    simp [forwardPacket, hnone]
  · intro l hsome hinel
    simp [forwardPacket, hsome, hinel]
  · intro l hsome hbw
    simp [forwardPacket, hsome, Nat.not_le_of_lt hbw]
  · intro l hsome hinel
    simp [forwardPacket, hsome, hinel, dropFromIndex]
  · cases hidx : index dest with
    | none =>
        left
        simp [forwardPacket, hidx]
    | some l =>
        by_cases hc : (l.eligible && decide (amt ≤ l.bw)) = true
        · right
          unfold forwardPacket
          rw [hidx]
          exact if_pos hc
        · left
          unfold forwardPacket
          rw [hidx]
          exact if_neg hc

/-- C4 witness: the routing-failure theorem instantiated on a concrete index
holding a single ineligible link: forwarding to it fails back, identically to
forwarding to an absent destination. -/
theorem forward_routing_failure_witness :
    forwardPacket sampleIndex 1 10 = FwdOutcome.failBack
    ∧ forwardPacket sampleIndex 2 10 = FwdOutcome.failBack
    ∧ forwardPacket sampleIndex 1 10
        = forwardPacket (dropFromIndex sampleIndex 1) 1 10 := by
  refine ⟨?_, ?_, ?_⟩
  · exact (forward_routing_failure sampleIndex 1 10).2.1
      { eligible := false, bw := 1000 } rfl rfl
  · exact (forward_routing_failure sampleIndex 2 10).1 rfl
  · exact (forward_routing_failure sampleIndex 1 10).2.2.2.1
      { eligible := false, bw := 1000 } rfl rfl

/-- Helper: looking up a key among entries filtered to exclude exactly that
key finds nothing. -/
theorem find?_filter_ne (sid : Nat) (idx : List (Nat × Nat)) :
    List.find? (fun p => p.1 == sid) (List.filter (fun p => p.1 != sid) idx)
      = none := by
  induction idx with
  | nil => rfl
  | cons a rest ih =>
      by_cases ha : a.1 = sid
      · simp [List.filter_cons, ha, ih]
      · simp [List.filter_cons, ha, List.find?, ih]

/-- C5: after UpdateShortChanID(id) returns, ShortChanID() returns the new
id; once the Switch has processed the corresponding re-registration, lookup
by the new ID returns the link while lookup by the old ID fails, so the old
and new IDs never simultaneously resolve to different links — and before the
re-registration, while the new ID is still unassigned, they cannot either. -/
theorem updateShortChanID_consistency (l : LinkIdent) (idx : SwitchIndex)
    (oldSid newSid lid : Nat) :
    shortChanID (updateShortChanID l newSid) = newSid
    ∧ lookupLink (reregister idx oldSid newSid lid) newSid = some lid
    ∧ (oldSid ≠ newSid →
        lookupLink (reregister idx oldSid newSid lid) oldSid = none)
    ∧ (oldSid ≠ newSid →
        ∀ a b, lookupLink (reregister idx oldSid newSid lid) oldSid = some a →
          lookupLink (reregister idx oldSid newSid lid) newSid = some b → a = b)
    ∧ (lookupLink idx newSid = none →
        ∀ a b, lookupLink idx oldSid = some a →
          lookupLink idx newSid = some b → a = b) := by
  have holdNone : oldSid ≠ newSid →
      lookupLink (reregister idx oldSid newSid lid) oldSid = none := by
    intro hne
    have hb2 : (newSid == oldSid) = false := by
      simp
      exact Ne.symm hne
    simp [lookupLink, reregister, List.find?, hb2, List.find?_eq_none]
  refine ⟨rfl, ?_, holdNone, ?_, ?_⟩
  · simp [lookupLink, reregister, List.find?]
  · intro hne a b hold
    rw [holdNone hne] at hold
    exact absurd hold (by simp)
  · intro hfresh a b _ hnew
    rw [hfresh] at hnew
    exact absurd hnew (by simp)

/-- C5 witness: the consistency theorem instantiated on a concrete index
mapping short channel ID 5 to link 10, re-registered under the new ID 7. -/
theorem updateShortChanID_consistency_witness :
    shortChanID (updateShortChanID { chanID := 3, sid := 5 } 7) = 7
    ∧ lookupLink (reregister [(5, 10)] 5 7 10) 7 = some 10
    ∧ lookupLink (reregister [(5, 10)] 5 7 10) 5 = none := by
  refine ⟨?_, ?_, ?_⟩
  · exact (updateShortChanID_consistency { chanID := 3, sid := 5 } [(5, 10)]
      5 7 10).1
  · exact (updateShortChanID_consistency { chanID := 3, sid := 5 } [(5, 10)]
      5 7 10).2.1
  · exact (updateShortChanID_consistency { chanID := 3, sid := 5 } [(5, 10)]
      5 7 10).2.2.1 (by decide)

/-- Helper: after marking payment hash h settled, looking h up finds the
invoice settled, provided it was present. -/
theorem lookupInvoice_markSettled (db : InvoiceDB) (h : Nat) (st : InvStatus)
    (hl : lookupInvoice db h = some st) :
    lookupInvoice (markSettled db h) h = some InvStatus.settled := by
  induction db with
  | nil => simp [lookupInvoice, List.find?] at hl
  | cons a rest ih =>
      by_cases ha : (a.1 == h) = true
      · simp [lookupInvoice, markSettled, List.find?, ha]
      · have hl2 : lookupInvoice rest h = some st := by
          simpa [lookupInvoice, List.find?, ha] using hl
        have ih2 := ih hl2
        simpa [lookupInvoice, markSettled, List.find?, ha] using ih2

/-- C3: SettleInvoice transitions an invoice to settled exactly once: on an
open invoice it succeeds and the invoice becomes settled, after which a
second call fails with errAlreadySettled and leaves the database unchanged;
on an unknown payment hash it fails with the distinct error errNotFound,
also leaving the database unchanged. -/
theorem settleInvoice_exactly_once (db : InvoiceDB) (h g : Nat) :
    (lookupInvoice db h = some InvStatus.opened →
      (settleInvoice db h).1 = Except.ok ()
      ∧ lookupInvoice (settleInvoice db h).2 h = some InvStatus.settled
      ∧ settleInvoice (settleInvoice db h).2 h
          = (Except.error InvoiceErr.errAlreadySettled, (settleInvoice db h).2))
    ∧ (lookupInvoice db g = none →
        settleInvoice db g = (Except.error InvoiceErr.errNotFound, db))
    ∧ (lookupInvoice db h = some InvStatus.settled →
        settleInvoice db h = (Except.error InvoiceErr.errAlreadySettled, db))
    ∧ InvoiceErr.errAlreadySettled ≠ InvoiceErr.errNotFound := by
  refine ⟨?_, ?_, ?_, by decide⟩
  · intro hopen
    have hsnd : (settleInvoice db h).2 = markSettled db h := by
      simp [settleInvoice, hopen]
    have hmark : lookupInvoice (markSettled db h) h = some InvStatus.settled :=
      lookupInvoice_markSettled db h InvStatus.opened hopen
    refine ⟨by simp [settleInvoice, hopen], ?_, ?_⟩
    · rw [hsnd]
      exact hmark
    · rw [hsnd]
      simp [settleInvoice, hmark]
  · intro hnone
    simp [settleInvoice, hnone]
  · intro hsettled
    simp [settleInvoice, hsettled]

/-- C3 witness: the exactly-once theorem instantiated on a concrete database
with invoice 1 open: the first settle succeeds, the second fails with
errAlreadySettled and changes nothing, and settling the unknown hash 3 fails
with errNotFound. -/
theorem settleInvoice_exactly_once_witness :
    (settleInvoice [(1, InvStatus.opened), (2, InvStatus.opened)] 1).1
        = Except.ok ()
    ∧ settleInvoice (settleInvoice [(1, InvStatus.opened), (2, InvStatus.opened)] 1).2 1
        = (Except.error InvoiceErr.errAlreadySettled,
            (settleInvoice [(1, InvStatus.opened), (2, InvStatus.opened)] 1).2)
    ∧ settleInvoice [(1, InvStatus.opened), (2, InvStatus.opened)] 3
        = (Except.error InvoiceErr.errNotFound,
            [(1, InvStatus.opened), (2, InvStatus.opened)]) := by
  refine ⟨?_, ?_, ?_⟩
  · exact ((settleInvoice_exactly_once
      [(1, InvStatus.opened), (2, InvStatus.opened)] 1 3).1 (by decide)).1
  · exact ((settleInvoice_exactly_once
      [(1, InvStatus.opened), (2, InvStatus.opened)] 1 3).1 (by decide)).2.2
  · exact (settleInvoice_exactly_once
      [(1, InvStatus.opened), (2, InvStatus.opened)] 1 3).2.1 (by decide)

/-- Helper: the amounts of a filtered HTLC list sum to no more than the
amounts of the full list. -/
theorem sum_map_filter_le (l : List (Nat × Nat)) (p : Nat × Nat → Bool) :
    ((l.filter p).map Prod.snd).sum ≤ (l.map Prod.snd).sum := by
  induction l with
  | nil => simp
  | cons a rest ih =>
      by_cases hp : p a = true
      · simp [List.filter_cons, hp]
        omega
      · simp [List.filter_cons, hp]
        omega

/-- Helper: each bandwidth-relevant operation preserves the bandwidth
invariant — an add is committed only after the admission check, and both
terminal resolutions only shrink the in-flight set. -/
theorem bwInvariant_applyOp (l : LinkChan) (op : LinkOp) (h : bwInvariant l) :
    bwInvariant (applyOp l op) := by
  cases op with
  | add i amt =>
      unfold applyOp forwardAdd
      by_cases hm : mayForward l amt = true
      · have hle : (l.inflight.map Prod.snd).sum + amt + l.reserve ≤ l.capacity := by
          simpa [mayForward, inflightSum] using hm
        simp only [hm, if_pos, Option.getD_some]
        unfold bwInvariant inflightSum at h ⊢
        simp only [List.map_cons, List.sum_cons]
        omega
      · simp only [hm, Bool.false_eq_true, if_neg, Option.getD_none]
        exact h
  | settle i =>
      unfold applyOp settleHtlc
      unfold bwInvariant inflightSum at h ⊢
      have hle := sum_map_filter_le l.inflight (fun p => p.1 != i)
      simp only []
      omega
  | fail i =>
      unfold applyOp failHtlc
      unfold bwInvariant inflightSum at h ⊢
      have hle := sum_map_filter_le l.inflight (fun p => p.1 != i)
      simp only []
      omega

/-- Helper: the bandwidth invariant holds after any sequence of operations
run from a state satisfying it. -/
theorem bwInvariant_runOps (ops : List LinkOp) (l : LinkChan)
    (h : bwInvariant l) : bwInvariant (runOps l ops) := by
  induction ops generalizing l with
  | nil => exact h
  | cons op rest ih => exact ih (applyOp l op) (bwInvariant_applyOp l op h)

/-- C2: for every link state reachable by adds within the bandwidth limit
and terminal resolutions, Bandwidth() equals capacity minus the unresolved
outgoing amounts minus the reserve and is never negative (an add that would
make it negative is rejected before commitment); and in the concrete
scenario of a link of capacity 1,000,000 msat and reserve 0, an add of
400,000 msat drops Bandwidth() to 600,000 and either terminal outcome —
settle or fail — restores it to 1,000,000 identically. -/
theorem bandwidth_invariant_holds (l0 : LinkChan) (ops : List LinkOp)
    (h0 : bwInvariant l0) :
    bwInvariant (runOps l0 ops)
    ∧ bandwidth (runOps l0 ops) + inflightSum (runOps l0 ops)
        + (runOps l0 ops).reserve = (runOps l0 ops).capacity
    ∧ ((bandwidth (runOps l0 ops) : Int)
        = ((runOps l0 ops).capacity : Int) - (inflightSum (runOps l0 ops) : Int)
          - ((runOps l0 ops).reserve : Int))
    ∧ bandwidth linkA = 1000000
    ∧ (forwardAdd linkA 1 400000).map bandwidth = some 600000
    ∧ (forwardAdd linkA 1 400000).map (fun l1 => bandwidth (settleHtlc l1 1))
        = some 1000000
    ∧ (forwardAdd linkA 1 400000).map (fun l1 => bandwidth (failHtlc l1 1))
        = some 1000000
    ∧ (forwardAdd linkA 1 400000).map (fun l1 => bandwidth (settleHtlc l1 1))
        = (forwardAdd linkA 1 400000).map (fun l1 => bandwidth (failHtlc l1 1)) := by
  have hinv := bwInvariant_runOps ops l0 h0
  refine ⟨hinv, ?_, ?_, by decide, by decide, by decide, by decide, by decide⟩
  · unfold bwInvariant at hinv
    unfold bandwidth
    omega
  · unfold bwInvariant at hinv
    unfold bandwidth
    omega

/-- C2 witness: the invariant theorem applied to the concrete scenario link,
and the scenario values evaluated. -/
theorem bandwidth_invariant_holds_witness :
    bwInvariant (runOps linkA [LinkOp.add 1 400000, LinkOp.settle 1])
    ∧ bandwidth (runOps linkA [LinkOp.add 1 400000]) = 600000
    ∧ bandwidth (runOps linkA [LinkOp.add 1 400000, LinkOp.settle 1]) = 1000000
    ∧ bandwidth (runOps linkA [LinkOp.add 1 400000, LinkOp.fail 1]) = 1000000 := by
  refine ⟨(bandwidth_invariant_holds linkA
    [LinkOp.add 1 400000, LinkOp.settle 1] (by decide)).1, ?_, ?_, ?_⟩
  · decide
  · decide
  · decide

/-- Helper: wrapping uint64 subtraction always produces a representable
value. -/
theorem usub64_lt (a b : Nat) : usub64 a b < 2 ^ 64 := by
  unfold usub64
  exact Nat.mod_lt _ (by norm_num)

/-- Helper: wrapping uint64 subtraction computes the mathematical difference
modulo 2^64. -/
theorem usub64_cast (a b : Nat) :
    (usub64 a b : Int) = ((a : Int) - (b : Int)) % 2 ^ 64 := by
  unfold usub64
  omega

/-- C9: Bandwidth() returns lnwire.MilliSatoshi, an unsigned 64-bit type, so
the value the Switch reads is non-negative by construction and always below
2^64; computed in wrapping uint64 arithmetic it is congruent to
capacity - inflight - reserve modulo 2^64, so a violation of the bandwidth
invariant could only manifest as wraparound, never as a negative reading —
and when the invariant holds the unsigned computation agrees exactly with
the invariant value. -/
theorem bandwidth_unsigned (l : LinkChan)
    (hc : l.capacity < 2 ^ 64) (hs : inflightSum l < 2 ^ 64)
    (hr : l.reserve < 2 ^ 64) :
    (method channelLinkMethods "Bandwidth").map GoMethod.rets
        = some [GoType.lnwireMilliSatoshi]
    ∧ isUnsignedGoType GoType.lnwireMilliSatoshi = true
    ∧ (method channelLinkMethods "Bandwidth").map returnsError = some false
    ∧ bandwidthU64 l < 2 ^ 64
    ∧ (0 : Int) ≤ (bandwidthU64 l : Int)
    ∧ ((bandwidthU64 l : Int)
        = ((l.capacity : Int) - (inflightSum l : Int) - (l.reserve : Int)) % 2 ^ 64)
    ∧ (bwInvariant l → bandwidthU64 l = bandwidth l) := by
  have h1 := usub64_cast l.capacity (inflightSum l)
  have h2 := usub64_cast (usub64 l.capacity (inflightSum l)) l.reserve
  have h4 := usub64_lt (usub64 l.capacity (inflightSum l)) l.reserve
  have hmain : (bandwidthU64 l : Int)
      = ((l.capacity : Int) - (inflightSum l : Int) - (l.reserve : Int)) % 2 ^ 64 := by
    unfold bandwidthU64
    rw [h2, h1]
    omega
  refine ⟨rfl, rfl, rfl, h4, Int.ofNat_nonneg _, hmain, ?_⟩
  intro hbw
  unfold bwInvariant at hbw
  unfold bandwidth
  have h5 : bandwidthU64 l < 2 ^ 64 := h4
  omega

/-- C9 witness: the unsigned-bandwidth theorem instantiated on the concrete
scenario link with one 400,000 msat HTLC in flight. -/
theorem bandwidth_unsigned_witness :
    bandwidthU64
        { capacity := 1000000, reserve := 0, inflight := [(1, 400000)],
          totalSent := 0 }
      = bandwidth
          { capacity := 1000000, reserve := 0, inflight := [(1, 400000)],
            totalSent := 0 }
    ∧ bandwidthU64
        { capacity := 1000000, reserve := 0, inflight := [(1, 400000)],
          totalSent := 0 }
      < 2 ^ 64 := by
  constructor
  · exact (bandwidth_unsigned
      { capacity := 1000000, reserve := 0, inflight := [(1, 400000)],
        totalSent := 0 }
      (by norm_num) (by norm_num [inflightSum]) (by norm_num)).2.2.2.2.2.2
      (by norm_num [bwInvariant, inflightSum])
  · exact (bandwidth_unsigned
      { capacity := 1000000, reserve := 0, inflight := [(1, 400000)],
        totalSent := 0 }
      (by norm_num) (by norm_num [inflightSum]) (by norm_num)).2.2.2.1

/-- Helper: running the Switch over a cons of events steps first. -/
theorem swRun_cons (s : SwState) (e : SwEvent) (rest : List SwEvent) :
    swRun s (e :: rest) = swRun (swStep s e) rest :=
  rfl

/-- Helper: running the Switch over events that contain no forward of
payment hash g, from a state with no open circuit for g, opens no circuit
for g and emits no terminal packet for g. -/
theorem swRun_absent (g : Nat) (es : List SwEvent) :
    ∀ s : SwState, (∀ e ∈ es, isForwardOf g e = false) → g ∉ s.circuits →
      g ∉ (swRun s es).circuits
      ∧ terminalCount (swRun s es) g = terminalCount s g := by
  induction es with
  | nil =>
      intro s _ hnc
      exact ⟨hnc, rfl⟩
  | cons e rest ih =>
      intro s hnf hnc
      have hnf1 : isForwardOf g e = false := hnf e (List.mem_cons_self e rest)
      have hnfr : ∀ x ∈ rest, isForwardOf g x = false :=
        fun x hx => hnf x (List.mem_cons_of_mem e hx)
      have hstep : g ∉ (swStep s e).circuits
          ∧ terminalCount (swStep s e) g = terminalCount s g := by
        cases e with
        | forward h ok =>
            have hne : h ≠ g := by simpa [isForwardOf] using hnf1
            cases ok with
            | true =>
                refine ⟨?_, rfl⟩
                intro hmem
                rcases List.mem_cons.mp (by simpa [swStep] using hmem) with h1 | h2
                · exact hne h1.symm
                · exact hnc h2
            | false =>
                refine ⟨hnc, ?_⟩
                simp [swStep, terminalCount, List.filter_cons, hne]
        | response h b =>
            by_cases hmem : h ∈ s.circuits
            · have hne : h ≠ g := fun heq => hnc (heq ▸ hmem)
              have hred : swStep s (SwEvent.response h b)
                  = { circuits := s.circuits.erase h,
                      emitted := (h, b) :: s.emitted } := by
                simp [swStep, hmem]
              rw [hred]
              refine ⟨?_, ?_⟩
              · intro hg
                exact hnc (List.mem_of_mem_erase hg)
              · simp [terminalCount, List.filter_cons, hne]
            · have hred : swStep s (SwEvent.response h b) = s := by
                simp [swStep, hmem]
              rw [hred]
              exact ⟨hnc, rfl⟩
      rw [swRun_cons]
      obtain ⟨ih1, ih2⟩ := ih (swStep s e) hnfr hstep.1
      exact ⟨ih1, by rw [ih2, hstep.2]⟩

/-- Helper: running the Switch over events that contain no forward of
payment hash g but at least one terminal response for g, from a state with
exactly one open circuit for g, emits exactly one more terminal packet for
g. -/
theorem swRun_pending (g : Nat) (es : List SwEvent) :
    ∀ s : SwState, (∀ e ∈ es, isForwardOf g e = false) →
      s.circuits.count g = 1 →
      (∃ e ∈ es, isResponseOf g e = true) →
      terminalCount (swRun s es) g = terminalCount s g + 1 := by
  induction es with
  | nil =>
      intro s _ _ hex
      simp at hex
  | cons e rest ih =>
      intro s hnf hcnt hex
      have hnf1 : isForwardOf g e = false := hnf e (List.mem_cons_self e rest)
      have hnfr : ∀ x ∈ rest, isForwardOf g x = false :=
        fun x hx => hnf x (List.mem_cons_of_mem e hx)
      cases e with
      | forward h ok =>
          have hne : h ≠ g := by simpa [isForwardOf] using hnf1
          have hexr : ∃ x ∈ rest, isResponseOf g x = true := by
            rcases hex with ⟨x, hx, hres⟩
            rcases List.mem_cons.mp hx with h1 | h2
            · rw [h1] at hres
              simp [isResponseOf] at hres
            · exact ⟨x, h2, hres⟩
          cases ok with
          | true =>
              rw [swRun_cons]
              have hstepc : (swStep s (SwEvent.forward h true)).circuits.count g
                  = 1 := by
                simp only [swStep, if_pos]
                rw [List.count_cons]
                simp [hne, hcnt]
              have hstepe : terminalCount (swStep s (SwEvent.forward h true)) g
                  = terminalCount s g := rfl
              rw [ih _ hnfr hstepc hexr, hstepe]
          | false =>
              rw [swRun_cons]
              have hstepc : (swStep s (SwEvent.forward h false)).circuits.count g
                  = 1 := hcnt
              have hstepe : terminalCount (swStep s (SwEvent.forward h false)) g
                  = terminalCount s g := by
                simp [swStep, terminalCount, List.filter_cons, hne]
              rw [ih _ hnfr hstepc hexr, hstepe]
      | response h b =>
          by_cases hg : h = g
          · subst hg
            have hmem : h ∈ s.circuits :=
              List.count_pos_iff.mp (by omega)
            have hred : swStep s (SwEvent.response h b)
                = { circuits := s.circuits.erase h,
                    emitted := (h, b) :: s.emitted } := by
              simp [swStep, hmem]
            have hnotin : h ∉ s.circuits.erase h := by
              rw [← List.count_eq_zero]
              rw [List.count_erase_self]
              omega
            rw [swRun_cons, hred]
            obtain ⟨_, habs2⟩ := swRun_absent h rest
              { circuits := s.circuits.erase h, emitted := (h, b) :: s.emitted }
              hnfr hnotin
            rw [habs2]
            simp [terminalCount, List.filter_cons]
          · have hne : h ≠ g := hg
            have hexr : ∃ x ∈ rest, isResponseOf g x = true := by
              rcases hex with ⟨x, hx, hres⟩
              rcases List.mem_cons.mp hx with h1 | h2
              · rw [h1] at hres
                simp [isResponseOf] at hres
                exact absurd hres hne
              · exact ⟨x, h2, hres⟩
            by_cases hmem : h ∈ s.circuits
            · have hred : swStep s (SwEvent.response h b)
                  = { circuits := s.circuits.erase h,
                      emitted := (h, b) :: s.emitted } := by
                simp [swStep, hmem]
              have hstepc :
                  (List.erase s.circuits h).count g = 1 := by
                rw [List.count_erase_of_ne (Ne.symm hne)]
                exact hcnt
              have hstepe : terminalCount
                  { circuits := s.circuits.erase h,
                    emitted := (h, b) :: s.emitted } g = terminalCount s g := by
                simp [terminalCount, List.filter_cons, hne]
              rw [swRun_cons, hred, ih _ hnfr hstepc hexr, hstepe]
            · have hred : swStep s (SwEvent.response h b) = s := by
                simp [swStep, hmem]
              rw [swRun_cons, hred]
              exact ih _ hnfr hcnt hexr

/-- C1: for every add packet accepted by the Switch's Forward — whether the
routing decision succeeds or synthesizes an immediate fail — exactly one
terminal packet (a settle xor a fail) is eventually emitted for its payment
hash along the reverse path, provided no other add carries the same hash and
(when the add was delivered) the destination link eventually hands back at
least one terminal response, duplicates being dropped: never zero terminal
packets and never two. -/
theorem forward_exactly_one_terminal (h : Nat) (ok : Bool)
    (pre post : List SwEvent)
    (hpre : ∀ e ∈ pre, isForwardOf h e = false)
    (hpost : ∀ e ∈ post, isForwardOf h e = false)
    (hlive : ok = true → ∃ e ∈ post, isResponseOf h e = true) :
    terminalCount (swRun swInit (pre ++ SwEvent.forward h ok :: post)) h = 1 := by
  have hsplit : swRun swInit (pre ++ SwEvent.forward h ok :: post)
      = swRun (swStep (swRun swInit pre) (SwEvent.forward h ok)) post := by
    unfold swRun
    rw [List.foldl_append]
    rfl
  obtain ⟨hnc1, hcnt1⟩ := swRun_absent h pre swInit hpre (by simp [swInit])
  have hcnt0 : terminalCount (swRun swInit pre) h = 0 := by
    rw [hcnt1]
    rfl
  rw [hsplit]
  cases ok with
  | true =>
      have hstepc : (swStep (swRun swInit pre) (SwEvent.forward h true)).circuits.count h
          = 1 := by
        simp only [swStep, if_pos]
        rw [List.count_cons]
        simp [List.count_eq_zero.mpr hnc1]
      have hstepe : terminalCount
          (swStep (swRun swInit pre) (SwEvent.forward h true)) h
          = terminalCount (swRun swInit pre) h := rfl
      rw [swRun_pending h post _ hpost hstepc (hlive rfl), hstepe, hcnt0]
  | false =>
      have hred : swStep (swRun swInit pre) (SwEvent.forward h false)
          = { circuits := (swRun swInit pre).circuits,
              emitted := (h, false) :: (swRun swInit pre).emitted } := by
        simp [swStep]
      have hstepe : terminalCount
          (swStep (swRun swInit pre) (SwEvent.forward h false)) h
          = terminalCount (swRun swInit pre) h + 1 := by
        rw [hred]
        simp [terminalCount, List.filter_cons]
      obtain ⟨_, habs2⟩ := swRun_absent h post
        (swStep (swRun swInit pre) (SwEvent.forward h false)) hpost
        (by rw [hred]; exact hnc1)
      rw [habs2, hstepe, hcnt0]

/-- C1 witness: a concrete trace — another payment's add, the add of hash 1,
then a settle for hash 1, a duplicate fail for hash 1 (dropped), and a fail
for the other payment — emits exactly one terminal packet for hash 1. -/
theorem forward_exactly_one_terminal_witness :
    terminalCount
        (swRun swInit
          [SwEvent.forward 2 true, SwEvent.forward 1 true,
            SwEvent.response 1 true, SwEvent.response 1 false,
            SwEvent.response 2 false])
        1
      = 1 :=
  forward_exactly_one_terminal 1 true [SwEvent.forward 2 true]
    [SwEvent.response 1 true, SwEvent.response 1 false,
      SwEvent.response 2 false]
    (by decide) (by decide)
    (fun _ => ⟨SwEvent.response 1 true, by decide, by decide⟩)

end HtlcSwitch
